import Mathlib

/-!
Verification of the handlebars-preview extension (src/extension.ts and
src/preview-panel-scope.ts) against a shallow Lean embedding.

The embedding models:
- the JavaScript string operations used by `repathImages` (trimLeft,
  toLowerCase, slice, startsWith) over `String` viewed as a list of chars;
- Node's posix `path.join` and `path.dirname`;
- the render pipeline `getContextData` / `renderTemplate` /
  `getCompiledHtml` / `repathImages`, with the external collaborators
  (filesystem, JSON parser, handlebars compiler, cheerio HTML
  parser/serializer, webview resource rewriter) supplied as an explicit
  environment of functions, and exceptions modelled as `Option` / `Except`;
- the extension's process-wide state (the `panels` array, the
  handlebars partials registry, the workspace bulk-load flag) as a state
  machine whose events are the host callbacks wired up in `activate`.
-/

namespace HbPreview

/-! ## JavaScript string primitives (over `String` as a list of chars) -/

/-- JavaScript `String.prototype.trimStart` (aka `trimLeft`): drop leading
whitespace characters. -/
def jsTrimLeft (s : String) : String :=
  String.mk (s.data.dropWhile Char.isWhitespace)

/-- JavaScript `String.prototype.toLowerCase`, character-wise. -/
def jsToLower (s : String) : String :=
  String.mk (s.data.map Char.toLower)

/-- JavaScript `String.prototype.slice(0, n)`: the first `n` characters. -/
def jsTake (n : Nat) (s : String) : String :=
  String.mk (s.data.take n)

/-- JavaScript `String.prototype.startsWith(p)` for receiver `s`. -/
def jsStartsWith (p s : String) : Bool :=
  p.data.isPrefixOf s.data

/-! ## Node posix path operations -/

/-- Segment normalization used by Node's posix `path.normalize`: drops empty
and `.` segments and resolves `..` against the accumulated stack; when
`allowAboveRoot` is true (relative paths) unresolvable `..` segments are
kept. The accumulator holds processed segments in reverse order. -/
def normSegs (allowAboveRoot : Bool) : List String → List String → List String
  | acc, [] => acc.reverse
  | acc, seg :: rest =>
    if seg = "" ∨ seg = "." then
      normSegs allowAboveRoot acc rest
    else if seg = ".." then
      match acc with
      | [] =>
        if allowAboveRoot then normSegs allowAboveRoot [".."] rest
        else normSegs allowAboveRoot [] rest
      | top :: tl =>
        if top = ".." then normSegs allowAboveRoot (".." :: acc) rest
        else normSegs allowAboveRoot tl rest
    else
      normSegs allowAboveRoot (seg :: acc) rest

/-- Splitting a char list on `/` (JavaScript `split('/')` semantics:
adjacent separators and boundary separators contribute empty segments). -/
def splitSlashAux : List Char → List Char → List String
  | cur, [] => [String.mk cur.reverse]
  | cur, c :: rest =>
    if c = '/' then String.mk cur.reverse :: splitSlashAux [] rest
    else splitSlashAux (c :: cur) rest

/-- Splitting a path string into its `/`-separated segments. -/
def splitSlash (s : String) : List String := splitSlashAux [] s.data

/-- Joining segments with `/` separators. -/
def joinSlash : List String → String
  | [] => ""
  | [s] => s
  | s :: rest => s ++ "/" ++ joinSlash rest

/-- Node posix `path.normalize`. -/
def pathNormalize (p : String) : String :=
  if p = "" then "." else
  let isAbs := p.data.head? == some '/'
  let hasTrail := p.data.getLast? == some '/'
  let segs := normSegs (!isAbs) [] (splitSlash p)
  let body := joinSlash segs
  let r := if isAbs then "/" ++ body else if body = "" then "." else body
  if hasTrail && !(r.data.getLast? == some '/') then r ++ "/" else r

/-- Node posix `path.join` for two arguments: empty parts are dropped, the
rest joined with a separator and normalized. -/
def pathJoin (a b : String) : String :=
  let joined := if a = "" then b else if b = "" then a else a ++ "/" ++ b
  if joined = "" then "." else pathNormalize joined

/-- Node posix `path.dirname`: skip trailing separators, then skip the last
component; what remains (without the separator that ended it) is the
directory, with the special root cases of the Node implementation. -/
def pathDirname (p : String) : String :=
  if p = "" then "." else
  let hasRoot := p.data.head? == some '/'
  let r1 := p.data.reverse.dropWhile (fun c => c = '/')
  let r2 := r1.dropWhile (fun c => c ≠ '/')
  match r2 with
  | [] => if hasRoot then "/" else "."
  | _ :: rest =>
    if rest = [] then (if hasRoot then "/" else ".")
    else if hasRoot ∧ rest = ['/'] then "//"
    else String.mk rest.reverse

/-! ## JSON values (context data) -/

/-- JSON-compatible value loaded from the sidecar context file. -/
inductive Json where
  | null : Json
  | bool : Bool → Json
  | num : Int → Json
  | str : String → Json
  | arr : List Json → Json
  | obj : List (String × Json) → Json

/-- The empty JSON object, the fallback of `getContextData`. -/
def Json.emptyObj : Json := Json.obj []

/-! ## Rendered-HTML model for `repathImages`

Cheerio's parse/serialize is an external collaborator; the embedding keeps
only what `repathImages` touches: the list of `img` elements, each with an
optional `src` attribute (`elm.attribs` may lack the key). -/

/-- An `img` element as seen by `repathImages`: its `src` attribute, absent
when the rendered HTML has an `img` with no `src`. -/
structure ImgEl where
  src : Option String

/-- The parsed document as far as `repathImages` is concerned. -/
structure HtmlModel where
  imgs : List ImgEl

/-! ## Fragment registry and templating engine

The handlebars partials registry (source: the global registry behind
`registerPartial`) is an association list looked up front-to-back, so a
prepended entry shadows older entries with the same name — the observable
overwrite semantics of assigning a key of a JavaScript object. -/

/-- The shared fragment (handlebars "partials") registry: name to raw
template text, most recent registration first. -/
abbrev Registry := List (String × String)

/-- Registering one fragment (source: `registerPartial(name, content)`).
Lookup is front-to-back, so this overwrites any previous entry observably. -/
def registerFragment (name content : String) (reg : Registry) : Registry :=
  (name, content) :: reg

/-- Looking a fragment up by name, as the engine does at render time. -/
def lookupFragment (name : String) (reg : Registry) : Option String :=
  List.lookup name reg

/-- A compiled template: given the current fragment registry and a context
value it either renders to HTML or fails (a render-time throw of the
engine). The engine itself is external; compiled templates are opaque
functions of this type. -/
abbrev Tmpl := Registry → Json → Except String String

/-- Modelled from the spec: the external templating engine's behavior on a
template that is a single fragment inclusion by name (spec §8, fragment
hot-update scenario: a template consisting of one fragment reference
renders to the registered fragment content, and an unregistered name is a
render error). The engine is external to the repository, so this is the
spec's description of it, used to settle the fragment-overwrite claim. -/
def fragmentRefTmpl (name : String) : Tmpl :=
  fun reg _ =>
    match lookupFragment name reg with
    | some content => Except.ok content
    | none => Except.error ("The partial " ++ name ++ " could not be found")

/-! ## External collaborators

Everything the extension calls into the host or libraries for, as one
environment of pure functions; a `none` / `Except.error` result stands for
the call throwing. -/

/-- The external collaborators of the core (host editor, filesystem,
handlebars compiler, cheerio, webview resource rewriter). -/
structure Env where
  /-- `workspace.getWorkspaceFolder`: the workspace root of a path. -/
  getWorkspaceFolder : String → Option String
  /-- `workspace.findFiles` over a workspace root: the fragment files. -/
  findFiles : String → List String
  /-- `fs.promises.readFile`: `none` when the read throws (missing file or
  I/O error). -/
  readFile : String → Option String
  /-- `document.getText()`: the current live text of the document at a
  path. -/
  docText : String → String
  /-- `JSON.parse`: `none` when parsing throws (empty input, truncated
  JSON, non-JSON text). -/
  parseJson : String → Option Json
  /-- `handlebars.compile` then invocation: a compile error for malformed
  template syntax, otherwise an opaque compiled template. -/
  compile : String → Except String Tmpl
  /-- Cheerio `load`: the `img` elements of rendered HTML. -/
  parseHtml : String → HtmlModel
  /-- Cheerio `$.html(...)`: serialize the (modified) document back. -/
  serializeHtml : HtmlModel → String
  /-- The webview resource rewriter: `uri.with (vscode-resource scheme)
  .toString()` applied to an absolute filesystem path. -/
  toSurfaceRef : String → String

/-! ## Render pipeline (src/preview-panel-scope.ts) -/

/-- Source `getContextFileName`: the sidecar context file is the template
file name with `.json` appended (the missing-file hint is a side effect
only). -/
def getContextFileName (templateFileName : String) : String :=
  templateFileName ++ ".json"

/-- Source `getContextData`: read and parse the context file; any throw of
the read or the parse is caught and yields the empty object. -/
def getContextData (readFile : String → Option String)
    (parseJson : String → Option Json) (contextFile : String) : Json :=
  match readFile contextFile with
  | none => Json.emptyObj
  | some contextJson =>
    match parseJson contextJson with
    | none => Json.emptyObj
    | some v => v

/-- The error text both catch blocks produce (the stringified thrown value
is kept opaque as the engine's error string). -/
def renderErrorMessage (err : String) : String :=
  "Error rendering handlebars template: " ++ err

/-- Source `renderTemplate`: invoke the compiled template; a throw is
caught and becomes an error message (the source returns `false` and pushes
the message on the `showErrorMessage` channel). -/
def renderTemplate (tmpl : Tmpl) (reg : Registry) (context : Json) :
    Except String String :=
  match tmpl reg context with
  | Except.ok html => Except.ok html
  | Except.error err => Except.error (renderErrorMessage err)

/-- The filter predicate of `repathImages`, given the element's `src`
text: keep (repath) the element unless its src is a data URI
(left-trimmed, first five chars lowercased equal `data:`) or starts with
`http` (lowercased, not trimmed). -/
def keepForRepath (s : String) : Bool :=
  (jsToLower (jsTake 5 (jsTrimLeft s)) != "data:") &&
    !(jsStartsWith "http" (jsToLower s))

/-- One `img` element under `repathImages`: reading `src` of an element
without that attribute throws (the unguarded `elm.attribs['src']`
access); a kept element's src is replaced by the rewriter's output for the
src joined onto the template's directory; a skipped element is unchanged. -/
def repathOneImg (rw : String → String) (dir : String) (img : ImgEl) :
    Except String ImgEl :=
  match img.src with
  | none => Except.error "TypeError: reading trimLeft of undefined"
  | some s =>
    if keepForRepath s then Except.ok ⟨some (rw (pathJoin dir s))⟩
    else Except.ok img

/-- All `img` elements in order; the first throw aborts the traversal. -/
def repathImgs (rw : String → String) (dir : String) :
    List ImgEl → Except String (List ImgEl)
  | [] => Except.ok []
  | img :: rest =>
    match repathOneImg rw dir img with
    | Except.error e => Except.error e
    | Except.ok img' =>
      match repathImgs rw dir rest with
      | Except.error e => Except.error e
      | Except.ok rest' => Except.ok (img' :: rest')

/-- Source `repathImages`: parse the rendered HTML, rewrite the `img`
src attributes against the directory of the template file, serialize
back. An uncaught throw (missing `src`) propagates to the caller. -/
def repathImages (parseHtml : String → HtmlModel)
    (serializeHtml : HtmlModel → String) (rw : String → String)
    (html : String) (templateFileName : String) : Except String String :=
  match repathImgs rw (pathDirname templateFileName) (parseHtml html).imgs with
  | Except.error e => Except.error e
  | Except.ok imgs => Except.ok (serializeHtml ⟨imgs⟩)

/-- Source `getCompiledHtml`: load the context, compile the live document
text, render, then repath; every stage failure is converted to data (the
source returns `false` plus a message on the `showErrorMessage` channel,
modelled as `Except.error` carrying the message) — the try/catch around
compile and repath and the catch inside `renderTemplate` mean no throw of
the pipeline escapes to the caller. -/
def getCompiledHtml (E : Env) (reg : Registry)
    (docPath contextFile : String) : Except String String :=
  let context := getContextData E.readFile E.parseJson contextFile
  match E.compile (E.docText docPath) with
  | Except.error err => Except.error (renderErrorMessage err)
  | Except.ok tmpl =>
    match renderTemplate tmpl reg context with
    | Except.error msg => Except.error msg
    | Except.ok rendered =>
      match repathImages E.parseHtml E.serializeHtml E.toSurfaceRef
          rendered docPath with
      | Except.ok r => Except.ok r
      | Except.error err => Except.error (renderErrorMessage err)

/-- Source `showErrorPage`: the minimal centered-message error page pushed
into the webview, exactly the template literal of the source. -/
def showErrorPageHtml (message : String) : String :=
  "\n        <html style=\"height: 100%;\">\n        <body style=\"height: 100%; display: flex; align-items: center; align-content: center; justify-content: center;\"><span>"
    ++ message ++ "</span></body>\n        </html>\n        "

/-! ## Preview sessions and extension state (src/extension.ts) -/

/-- A `PreviewPanelScope`: the bound document path, the derived context
file path, and the current webview HTML content. -/
structure Panel where
  documentPath : String
  contextFileName : String
  html : String

/-- Session construction (`new PreviewPanelScope`): binds the document,
computes the context file name, creates the (initially empty) webview. -/
def mkPanel (docPath : String) : Panel :=
  { documentPath := docPath
    contextFileName := getContextFileName docPath
    html := "" }

/-- Source `update()`: run the pipeline; on success set the webview HTML
(skipped when the string is falsy, i.e. empty); on failure the error page
with the failure message is displayed instead. The error-page display is
the `showErrorMessage` channel's subscriber, which lives in a revision of
extension.ts not present in src/ and is modelled from the spec: "if
compile/render fails, the session displays a minimal error page (centered
message text) in place of template output". -/
def updatePanel (E : Env) (reg : Registry) (p : Panel) : Panel :=
  match getCompiledHtml E reg p.documentPath p.contextFileName with
  | Except.ok html => if html = "" then p else { p with html := html }
  | Except.error msg => { p with html := showErrorPageHtml msg }

/-- The process-wide mutable state of `activate`: the `panels` array, the
set of bulk-loaded workspace roots (source:
`partialsRegisteredByWorkspace`), the shared fragment registry, and two
logs recording which panels received a surface `dispose()` call and which
context-file watchers were disposed. -/
structure ExtState where
  panels : List Panel
  loadedWorkspaces : List String
  registry : Registry
  surfaceDisposeLog : List String
  watcherDisposeLog : List String

/-- Modelled from the spec: the `partial-name-generator` module is imported
by extension.ts but absent from src/; per spec §4.1 the name is "the path
relative to the workspace root with path separators normalized and an
extension stripped". -/
def fragmentNameGenerator (filePath workspaceRoot : String) : String :=
  let rel :=
    if jsStartsWith (workspaceRoot ++ "/") filePath then
      String.mk (filePath.data.drop (workspaceRoot.data.length + 1))
    else filePath
  let normalized := rel.data.map (fun c => if c = '\\' then '/' else c)
  let r := normalized.reverse
  if r.any (fun c => c = '.') then
    String.mk ((r.dropWhile (fun c => c ≠ '.')).drop 1).reverse
  else String.mk normalized

/-- The read-and-name loop of `findAndRegisterPartials`: build the
`knownPartials` object over the found files; a throwing `readFile` aborts
the whole bulk load (`none`). Later files are appended after earlier ones
so that, front-to-back, an earlier entry is only shadowed per JavaScript
object assignment order when the same name recurs (later wins on lookup
requires later entries first, hence each file's entry is appended after
the recursion on the rest). -/
def collectFragments (E : Env) : List String → Option Registry
  | [] => some []
  | f :: rest =>
    match E.getWorkspaceFolder f with
    | none => collectFragments E rest
    | some wf =>
      match E.readFile f with
      | none => none
      | some content =>
        match collectFragments E rest with
        | none => none
        | some ps => some (ps ++ [(fragmentNameGenerator f wf, content)])

/-- Source `findAndRegisterPartials`: discover the workspace's fragment
files, bulk-register them (object entries override older registry
entries), and mark the workspace root as loaded; `none` when a file read
throws (nothing registered, flag not set, and the command aborts). -/
def findAndRegisterFragments (E : Env) (root : String) (st : ExtState) :
    Option ExtState :=
  match collectFragments E (E.findFiles root) with
  | none => none
  | some known =>
    some { st with
      registry := known ++ st.registry
      loadedWorkspaces := root :: st.loadedWorkspaces }

/-- The first phase of the preview command: when a session already exists
for the document's path, its surface is disposed (the dispose handler
releases its watcher and the session leaves the `panels` array). -/
def removeExisting (st : ExtState) (docPath : String) : ExtState :=
  match st.panels.find? (fun p => p.documentPath == docPath) with
  | some existing =>
    { st with
      panels := st.panels.eraseP (fun p => p.documentPath == docPath)
      surfaceDisposeLog := existing.documentPath :: st.surfaceDisposeLog
      watcherDisposeLog := existing.contextFileName :: st.watcherDisposeLog }
  | none => st

/-- Opening within a resolved workspace root: bulk-load fragments on the
first visit of that root (an I/O throw aborts the command and leaves the
state as it was after the removal phase), then construct, render and
register a fresh session. -/
def openInRoot (E : Env) (st1 : ExtState) (docPath root : String) : ExtState :=
  match
    (if st1.loadedWorkspaces.contains root then some st1
     else findAndRegisterFragments E root st1) with
  | none => st1
  | some st2 =>
    { st2 with
      panels := st2.panels ++ [updatePanel E st2.registry (mkPanel docPath)] }

/-- The second phase of the preview command: resolve the workspace folder
(returning early when there is none), then open within it. -/
def openAfterRemoval (E : Env) (st1 : ExtState) (docPath : String) : ExtState :=
  match E.getWorkspaceFolder docPath with
  | none => st1
  | some root => openInRoot E st1 docPath root

/-- The preview command (`extension.previewHandlebars`): dispose and
remove any existing session for the path first, then open a fresh one. -/
def previewCommand (E : Env) (st : ExtState) (docPath : String) : ExtState :=
  openAfterRemoval E (removeExisting st docPath) docPath

/-- The fragment watcher handlers (`watchForPartials` onDidCreate /
onDidChange, identical net effect): resolve the workspace folder of the
changed file, read it (a throw aborts the handler), register the fragment
under its derived name, then update every open session. -/
def fragmentFileEvent (E : Env) (st : ExtState) (f : String) : ExtState :=
  match E.getWorkspaceFolder f with
  | none => st
  | some wf =>
    match E.readFile f with
    | none => st
    | some content =>
      let reg := registerFragment (fragmentNameGenerator f wf) content st.registry
      { st with
        registry := reg
        panels := st.panels.map (updatePanel E reg) }

/-- Source `workspaceDocumentChanged`: re-render when the changed document
is the session's bound document or its path equals the session's context
file name; otherwise do nothing. -/
def workspaceDocumentChanged (E : Env) (reg : Registry)
    (changedPath : String) (p : Panel) : Panel :=
  if changedPath == p.documentPath || changedPath == p.contextFileName then
    updatePanel E reg p
  else p

/-- The `workspace.onDidChangeTextDocument` subscription of `activate`:
broadcast the change to every session. -/
def docChangedEvent (E : Env) (st : ExtState) (changedPath : String) :
    ExtState :=
  { st with
    panels := st.panels.map (workspaceDocumentChanged E st.registry changedPath) }

/-- The per-session context-file watcher (`contextWatcher.onDidChange`):
re-render the sessions watching the changed path (same pipeline and
webview-set logic as `update`). -/
def contextFileChangedEvent (E : Env) (st : ExtState) (path : String) :
    ExtState :=
  { st with
    panels := st.panels.map
      (fun p => if p.contextFileName == path then updatePanel E st.registry p
                else p) }

/-- A surface close (`panel.onDidDispose` from the user closing the
webview): the session's context watcher is disposed and the session is
removed from the active set — the removal callback
(`onPreviewPanelClosed`) is passed at construction in a revision of
extension.ts not present in src/ and is modelled from the spec:
"remove(session): invoked by a session's own closure transition; removes
it from the active set". -/
def surfaceClosedEvent (st : ExtState) (docPath : String) : ExtState :=
  match st.panels.find? (fun p => p.documentPath == docPath) with
  | none => st
  | some p =>
    { st with
      panels := st.panels.eraseP (fun q => q.documentPath == docPath)
      watcherDisposeLog := p.contextFileName :: st.watcherDisposeLog }

/-- Source `deactivate`: dispose every session's surface (each dispose
handler releases the watcher; the active set empties). -/
def deactivateEvent (st : ExtState) : ExtState :=
  { st with
    panels := []
    surfaceDisposeLog := st.panels.map (fun p => p.documentPath)
      ++ st.surfaceDisposeLog
    watcherDisposeLog := st.panels.map (fun p => p.contextFileName)
      ++ st.watcherDisposeLog }

/-- The host callbacks wired up by `activate`, as state-machine events. -/
inductive Event where
  | preview (docPath : String)
  | fragmentFile (path : String)
  | docChanged (path : String)
  | contextFileChanged (path : String)
  | surfaceClosed (docPath : String)
  | deactivate

/-- One step of the extension's event-driven behavior. -/
def step (E : Env) (st : ExtState) : Event → ExtState
  | Event.preview dp => previewCommand E st dp
  | Event.fragmentFile f => fragmentFileEvent E st f
  | Event.docChanged p => docChangedEvent E st p
  | Event.contextFileChanged p => contextFileChangedEvent E st p
  | Event.surfaceClosed dp => surfaceClosedEvent st dp
  | Event.deactivate => deactivateEvent st

/-! ## Concrete instances used to evaluate the model at specific inputs -/

/-- A concrete environment: the document belongs to no workspace folder,
every file read throws, and compilation fails. -/
def baseEnv : Env :=
  { getWorkspaceFolder := fun _ => none
    findFiles := fun _ => []
    readFile := fun _ => none
    docText := fun _ => ""
    parseJson := fun _ => none
    compile := fun _ => Except.error "unexpected token"
    parseHtml := fun _ => ⟨[]⟩
    serializeHtml := fun _ => ""
    toSurfaceRef := fun s => s }

/-- A concrete environment where every document lives in workspace root
`/proj` (no fragment files found there). -/
def wsEnv : Env := { baseEnv with getWorkspaceFolder := fun _ => some "/proj" }

/-- A concrete environment whose pipeline succeeds with a fixed rendered
page containing no images. -/
def okEnv : Env :=
  { baseEnv with
    compile := fun _ => Except.ok (fun _ _ => Except.ok "<p>World</p>")
    serializeHtml := fun _ => "<p>World</p>" }

/-- A concrete environment whose render output parses to one `img` element
carrying no `src` attribute. -/
def imgEnv : Env :=
  { baseEnv with
    compile := fun _ => Except.ok (fun _ _ => Except.ok "<img>")
    parseHtml := fun _ => ⟨[ImgEl.mk none]⟩ }

/-- A concrete environment for fragment-file events: the file is in
workspace root `/proj` and reads as a fixed fragment body. -/
def fragEnv : Env :=
  { baseEnv with
    getWorkspaceFolder := fun _ => some "/proj"
    readFile := fun _ => some "<h1>Hi</h1>" }

/-- A concrete state holding exactly one session, bound to `/a.hbs`. -/
def oneSessionState : ExtState :=
  { panels := [mkPanel "/a.hbs"]
    loadedWorkspaces := []
    registry := []
    surfaceDisposeLog := []
    watcherDisposeLog := [] }

/-- A concrete state holding one session with the workspace root `/proj`
already bulk-loaded. -/
def loadedState : ExtState :=
  { oneSessionState with loadedWorkspaces := ["/proj"] }

/-! ## Helper lemmas -/

theorem string_mk_eq_iff (l : List Char) (s : String) :
    String.mk l = s ↔ l = s.data := by
  constructor
  · intro h; rw [← h]
  · intro h; cases s; exact congrArg String.mk h

/-- The source's slice-and-compare data-URI test equals a case-insensitive
prefix test: the first five lowercased characters are `data:` exactly when
the lowercased text starts with `data:`. -/
theorem dataPrefix_iff (t : String) :
    jsToLower (jsTake 5 t) = "data:" ↔ jsStartsWith "data:" (jsToLower t) = true := by
  unfold jsToLower jsTake jsStartsWith
  rw [string_mk_eq_iff, List.isPrefixOf_iff_prefix]
  show (t.data.take 5).map Char.toLower = "data:".data ↔
    "data:".data <+: t.data.map Char.toLower
  rw [List.map_take]
  constructor
  · intro h; rw [← h]; exact List.take_prefix 5 _
  · intro h
    have h2 := (List.prefix_iff_eq_take.mp h).symm
    have h5 : ("data:".data).length = 5 := rfl
    rw [h5] at h2
    exact h2

/-- The filter predicate rejects (leaves unchanged) exactly the data-URI
and http references of the claim. -/
theorem keepForRepath_false_iff (s : String) :
    keepForRepath s = false ↔
      (jsStartsWith "data:" (jsToLower (jsTrimLeft s)) = true ∨
       jsStartsWith "http" (jsToLower s) = true) := by
  simp only [keepForRepath, Bool.and_eq_false_iff, Bool.not_eq_false',
    bne_eq_false_iff_eq]
  exact or_congr (dataPrefix_iff (jsTrimLeft s)) Iff.rfl

theorem keepForRepath_true (s : String)
    (hd : jsStartsWith "data:" (jsToLower (jsTrimLeft s)) = false)
    (hh : jsStartsWith "http" (jsToLower s) = false) :
    keepForRepath s = true := by
  cases hk : keepForRepath s
  · rcases (keepForRepath_false_iff s).mp hk with h | h
    · simp [h] at hd
    · simp [h] at hh
  · rfl

/-- Re-rendering never rebinds a session: `update` only replaces the
webview HTML. -/
theorem updatePanel_documentPath (E : Env) (reg : Registry) (p : Panel) :
    (updatePanel E reg p).documentPath = p.documentPath := by
  unfold updatePanel
  cases getCompiledHtml E reg p.documentPath p.contextFileName with
  | ok h =>
    by_cases hh : h = "" <;> simp [hh]
  | error m => rfl

theorem updatePanel_contextFileName (E : Env) (reg : Registry) (p : Panel) :
    (updatePanel E reg p).contextFileName = p.contextFileName := by
  unfold updatePanel
  cases getCompiledHtml E reg p.documentPath p.contextFileName with
  | ok h =>
    by_cases hh : h = "" <;> simp [hh]
  | error m => rfl

/-- Updating every session in place preserves the bound document paths. -/
theorem map_documentPath_updateAll (E : Env) (reg : Registry) (l : List Panel) :
    (l.map (updatePanel E reg)).map (fun p => p.documentPath)
      = l.map (fun p => p.documentPath) := by
  induction l with
  | nil => rfl
  | cons x xs ih => simp [updatePanel_documentPath, ih]

theorem wdc_documentPath (E : Env) (reg : Registry) (cp : String) (p : Panel) :
    (workspaceDocumentChanged E reg cp p).documentPath = p.documentPath := by
  unfold workspaceDocumentChanged
  split
  · exact updatePanel_documentPath E reg p
  · rfl

/-- Broadcasting a document change preserves the bound document paths. -/
theorem map_documentPath_docChanged (E : Env) (reg : Registry) (cp : String)
    (l : List Panel) :
    (l.map (workspaceDocumentChanged E reg cp)).map (fun p => p.documentPath)
      = l.map (fun p => p.documentPath) := by
  induction l with
  | nil => rfl
  | cons x xs ih => simp [wdc_documentPath, ih]

/-- Erasing the found element drops exactly one match from the count. -/
theorem countP_eraseP_of_find {α : Type} (f : α → Bool) (l : List α) (a : α)
    (h : l.find? f = some a) :
    (l.eraseP f).countP f + 1 = l.countP f := by
  induction l with
  | nil => simp at h
  | cons x xs ih =>
    by_cases hx : f x
    · rw [List.eraseP_cons_of_pos hx, List.countP_cons_of_pos _ _ hx]
    · rw [List.find?_cons_of_neg _ hx] at h
      rw [List.eraseP_cons_of_neg hx, List.countP_cons_of_neg _ _ hx,
        List.countP_cons_of_neg _ _ hx]
      exact ih h

/-! ## Claim theorems -/

/-- C2: resource-path rewriting leaves an `img` src unchanged when, after
trimming leading whitespace, it begins case-insensitively with `data:`, or
when it begins case-insensitively with `http`; every other src is replaced
by the rewriter's output for the src joined onto the template's directory
path, and in particular src `./img/logo.png` with template directory
`/proj/tpl` becomes the rewriter's output for `/proj/tpl/img/logo.png`. -/
theorem C2_repath_skips_data_and_http (rw : String → String) (dir s : String) :
    ((jsStartsWith "data:" (jsToLower (jsTrimLeft s)) = true ∨
        jsStartsWith "http" (jsToLower s) = true) →
      repathOneImg rw dir ⟨some s⟩ = Except.ok ⟨some s⟩)
    ∧ (jsStartsWith "data:" (jsToLower (jsTrimLeft s)) = false →
        jsStartsWith "http" (jsToLower s) = false →
      repathOneImg rw dir ⟨some s⟩ = Except.ok ⟨some (rw (pathJoin dir s))⟩)
    ∧ repathOneImg rw "/proj/tpl" ⟨some "./img/logo.png"⟩
        = Except.ok ⟨some (rw (pathJoin "/proj/tpl" "./img/logo.png"))⟩
    ∧ pathJoin "/proj/tpl" "./img/logo.png" = "/proj/tpl/img/logo.png" := by
  refine ⟨?_, ?_, ?_, ?_⟩
  · intro h
    have hk : keepForRepath s = false := (keepForRepath_false_iff s).mpr h
    simp [repathOneImg, hk]
  · intro hd hh
    have hk : keepForRepath s = true := keepForRepath_true s hd hh
    simp [repathOneImg, hk]
  · rfl
  · rfl

/-- C2 witness: the data-URI and remote examples are left unchanged and the
relative example becomes the rewriter's output for the joined path. -/
theorem C2_witness :
    repathOneImg id "/proj/tpl" ⟨some "data:image/png;base64,AAAA"⟩
      = Except.ok ⟨some "data:image/png;base64,AAAA"⟩
    ∧ repathOneImg id "/proj/tpl" ⟨some "HTTP://x/y.png"⟩
      = Except.ok ⟨some "HTTP://x/y.png"⟩
    ∧ repathOneImg id "/proj/tpl" ⟨some "./img/logo.png"⟩
      = Except.ok ⟨some "/proj/tpl/img/logo.png"⟩ := by
  refine ⟨?_, ?_, ?_⟩
  · exact (C2_repath_skips_data_and_http id "/proj/tpl"
      "data:image/png;base64,AAAA").1 (Or.inl (by rfl))
  · exact (C2_repath_skips_data_and_http id "/proj/tpl"
      "HTTP://x/y.png").1 (Or.inr (by rfl))
  · exact ((C2_repath_skips_data_and_http id "/proj/tpl"
      "./img/logo.png").2.1 (by rfl) (by rfl)).trans (by rfl)

/-- C3: `getContextData` never raises — it is a total function whose result
on a throwing read (missing file, I/O error) or a throwing parse (empty
file, truncated JSON, non-JSON text) is the empty object, and on a
successful parse is the parsed JSON value. -/
theorem C3_getContextData_total (readFile : String → Option String)
    (parseJson : String → Option Json) (cf : String) :
    (readFile cf = none → getContextData readFile parseJson cf = Json.emptyObj)
    ∧ (∀ s, readFile cf = some s → parseJson s = none →
        getContextData readFile parseJson cf = Json.emptyObj)
    ∧ (∀ s v, readFile cf = some s → parseJson s = some v →
        getContextData readFile parseJson cf = v) := by
  refine ⟨?_, ?_, ?_⟩
  · intro h; simp [getContextData, h]
  · intro s h hp; simp [getContextData, h, hp]
  · intro s v h hp; simp [getContextData, h, hp]

/-- C3 witness: a throwing read yields the empty object; a throwing parse
yields the empty object; a successful parse yields the parsed value. -/
theorem C3_witness :
    getContextData (fun _ => none) (fun _ => none) "/a.hbs.json" = Json.emptyObj
    ∧ getContextData (fun _ => some "") (fun _ => none) "/a.hbs.json" = Json.emptyObj
    ∧ getContextData (fun _ => some "\"v\"") (fun _ => some (Json.str "v"))
        "/a.hbs.json" = Json.str "v" := by
  refine ⟨?_, ?_, ?_⟩
  · exact (C3_getContextData_total _ _ _).1 rfl
  · exact (C3_getContextData_total _ _ _).2.1 "" rfl rfl
  · exact (C3_getContextData_total _ _ _).2.2 "\"v\"" (Json.str "v") rfl rfl

/-- C4: `getCompiledHtml` composes compile, render and repath,
short-circuiting to an error result on the first failing stage; being a
total function into `Except`, every failure is returned as data (an error
message, not an HTML string) and nothing from the pipeline escapes to the
caller. -/
theorem C4_getCompiledHtml_composes (E : Env) (reg : Registry) (dp cf : String) :
    (∀ e, E.compile (E.docText dp) = Except.error e →
        getCompiledHtml E reg dp cf = Except.error (renderErrorMessage e))
    ∧ (∀ t e, E.compile (E.docText dp) = Except.ok t →
        t reg (getContextData E.readFile E.parseJson cf) = Except.error e →
        getCompiledHtml E reg dp cf = Except.error (renderErrorMessage e))
    ∧ (∀ t h e, E.compile (E.docText dp) = Except.ok t →
        t reg (getContextData E.readFile E.parseJson cf) = Except.ok h →
        repathImages E.parseHtml E.serializeHtml E.toSurfaceRef h dp
          = Except.error e →
        getCompiledHtml E reg dp cf = Except.error (renderErrorMessage e))
    ∧ (∀ t h r, E.compile (E.docText dp) = Except.ok t →
        t reg (getContextData E.readFile E.parseJson cf) = Except.ok h →
        repathImages E.parseHtml E.serializeHtml E.toSurfaceRef h dp
          = Except.ok r →
        getCompiledHtml E reg dp cf = Except.ok r) := by
  refine ⟨?_, ?_, ?_, ?_⟩
  · intro e hc
    simp [getCompiledHtml, hc]
  · intro t e hc hr
    simp [getCompiledHtml, renderTemplate, hc, hr]
  · intro t h e hc hr hrp
    simp [getCompiledHtml, renderTemplate, hc, hr, hrp]
  · intro t h r hc hr hrp
    simp [getCompiledHtml, renderTemplate, hc, hr, hrp]

/-- C4 witness: a failing compile yields an error result, and a fully
successful pipeline yields the repathed HTML. -/
theorem C4_witness :
    getCompiledHtml baseEnv [] "/a.hbs" "/a.hbs.json"
      = Except.error (renderErrorMessage "unexpected token")
    ∧ getCompiledHtml okEnv [] "/a.hbs" "/a.hbs.json"
      = Except.ok "<p>World</p>" := by
  constructor
  · exact (C4_getCompiledHtml_composes baseEnv [] "/a.hbs" "/a.hbs.json").1
      "unexpected token" rfl
  · exact (C4_getCompiledHtml_composes okEnv [] "/a.hbs" "/a.hbs.json").2.2.2
      _ "<p>World</p>" "<p>World</p>" rfl rfl rfl

/-- An `img` element carrying no `src` makes the repath traversal throw. -/
theorem repathImgs_error_of_mem_none (rw : String → String) (dir : String)
    (l : List ImgEl) (h : ImgEl.mk none ∈ l) :
    ∃ e, repathImgs rw dir l = Except.error e := by
  induction l with
  | nil => cases h
  | cons x xs ih =>
    rcases List.mem_cons.mp h with hx | hxs
    · refine ⟨"TypeError: reading trimLeft of undefined", ?_⟩
      rw [← hx]
      rfl
    · cases hone : repathOneImg rw dir x with
      | error e => exact ⟨e, by simp [repathImgs, hone]⟩
      | ok y =>
        obtain ⟨e, he⟩ := ih hxs
        exact ⟨e, by simp [repathImgs, hone, he]⟩

/-- C10: when the rendered HTML contains an `img` element with no `src`
attribute, `repathImages` throws (the unguarded attribute access in the
filter), and the enclosing catch of `getCompiledHtml` converts the throw
into an error result instead of an HTML string. -/
theorem C10_missing_src_error (E : Env) (reg : Registry) (dp cf : String)
    (t : Tmpl) (h : String)
    (hc : E.compile (E.docText dp) = Except.ok t)
    (hr : t reg (getContextData E.readFile E.parseJson cf) = Except.ok h)
    (himg : ImgEl.mk none ∈ (E.parseHtml h).imgs) :
    (∃ e, repathImages E.parseHtml E.serializeHtml E.toSurfaceRef h dp
        = Except.error e)
    ∧ ∃ e, getCompiledHtml E reg dp cf = Except.error e := by
  obtain ⟨e, he⟩ := repathImgs_error_of_mem_none E.toSurfaceRef
    (pathDirname dp) (E.parseHtml h).imgs himg
  refine ⟨⟨e, ?_⟩, ⟨renderErrorMessage e, ?_⟩⟩
  · simp [repathImages, he]
  · simp [getCompiledHtml, renderTemplate, hc, hr, repathImages, he]

/-- C10 witness: a pipeline whose render output parses to one src-less
`img` produces an error result. -/
theorem C10_witness :
    ∃ e, getCompiledHtml imgEnv [] "/a.hbs" "/a.hbs.json" = Except.error e := by
  exact (C10_missing_src_error imgEnv [] "/a.hbs" "/a.hbs.json"
    _ "<img>" rfl rfl (by simp [imgEnv, baseEnv])).2

/-- C5: when the pipeline fails during an update, the session displays the
minimal centered-message error page in place of template output; the
session is not torn down (a change broadcast preserves the set of bound
document paths) and the next successful trigger renders normally again. -/
theorem C5_error_page_and_recovery (E E' : Env) (reg reg' : Registry)
    (p : Panel) (m h : String)
    (hfail : getCompiledHtml E reg p.documentPath p.contextFileName
      = Except.error m) :
    updatePanel E reg p = { p with html := showErrorPageHtml m }
    ∧ (getCompiledHtml E' reg' p.documentPath p.contextFileName
        = Except.ok h → h ≠ "" →
        updatePanel E' reg' (updatePanel E reg p) = { p with html := h })
    ∧ ∀ st changed,
        ((docChangedEvent E st changed).panels.map (fun q => q.documentPath))
          = st.panels.map (fun q => q.documentPath) := by
  refine ⟨?_, ?_, ?_⟩
  · simp [updatePanel, hfail]
  · intro hsucc hne
    have h1 : updatePanel E reg p = { p with html := showErrorPageHtml m } := by
      simp [updatePanel, hfail]
    rw [h1]
    simp [updatePanel, hsucc, hne]
  · intro st changed
    exact map_documentPath_docChanged E st.registry changed st.panels

/-- C5 witness: a failing compile displays the error page, and a following
successful update restores normal rendering on the same session. -/
theorem C5_witness :
    updatePanel baseEnv [] (mkPanel "/a.hbs")
      = { mkPanel "/a.hbs" with
            html := showErrorPageHtml (renderErrorMessage "unexpected token") }
    ∧ updatePanel okEnv [] (updatePanel baseEnv [] (mkPanel "/a.hbs"))
      = { mkPanel "/a.hbs" with html := "<p>World</p>" } := by
  have h := C5_error_page_and_recovery baseEnv okEnv [] [] (mkPanel "/a.hbs")
    (renderErrorMessage "unexpected token") "<p>World</p>" rfl
  exact ⟨h.1, h.2.1 rfl (by decide)⟩

/-- C6: a session re-renders on a document-change notification exactly when
the changed document is its bound template document or the changed
document's path equals its context-file path; any other notification
leaves the session (and hence its surface content) unchanged. -/
theorem C6_document_change_relevance (E : Env) (reg : Registry)
    (changed : String) (p : Panel) :
    ((changed = p.documentPath ∨ changed = p.contextFileName) →
      workspaceDocumentChanged E reg changed p = updatePanel E reg p)
    ∧ (changed ≠ p.documentPath → changed ≠ p.contextFileName →
      workspaceDocumentChanged E reg changed p = p)
    ∧ ∀ st, (docChangedEvent E st changed).panels
        = st.panels.map (workspaceDocumentChanged E st.registry changed) := by
  refine ⟨?_, ?_, ?_⟩
  · intro h
    rcases h with h | h <;> simp [workspaceDocumentChanged, h]
  · intro h1 h2
    simp [workspaceDocumentChanged, h1, h2]
  · intro st; rfl

/-- C6 witness: a change to the bound document re-renders; a change to an
unrelated document leaves the session unchanged. -/
theorem C6_witness :
    workspaceDocumentChanged wsEnv [] "/a.hbs" (mkPanel "/a.hbs")
      = updatePanel wsEnv [] (mkPanel "/a.hbs")
    ∧ workspaceDocumentChanged wsEnv [] "/other.hbs" (mkPanel "/a.hbs")
      = mkPanel "/a.hbs" := by
  constructor
  · exact (C6_document_change_relevance wsEnv [] "/a.hbs"
      (mkPanel "/a.hbs")).1 (Or.inl rfl)
  · exact (C6_document_change_relevance wsEnv [] "/other.hbs"
      (mkPanel "/a.hbs")).2.1 (by decide) (by decide)

/-- C7: re-registering a fragment name overwrites the previous value (the
registry lookup finds the latest registration), a render that includes the
fragment by name produces the latest registered content, and a
fragment-file change event re-renders the existing sessions in place —
the set of bound document paths is unchanged, so no new session is
required. -/
theorem C7_fragment_overwrite (E : Env) (st : ExtState)
    (f wf content : String) (reg : Registry) (n c1 c2 : String) (ctx : Json) :
    lookupFragment n (registerFragment n c2 (registerFragment n c1 reg))
      = some c2
    ∧ fragmentRefTmpl n (registerFragment n c2 reg) ctx = Except.ok c2
    ∧ (E.getWorkspaceFolder f = some wf → E.readFile f = some content →
        (fragmentFileEvent E st f).registry
          = registerFragment (fragmentNameGenerator f wf) content st.registry
        ∧ (fragmentFileEvent E st f).panels
          = st.panels.map (updatePanel E
              (registerFragment (fragmentNameGenerator f wf) content
                st.registry)))
    ∧ (fragmentFileEvent E st f).panels.map (fun p => p.documentPath)
      = st.panels.map (fun p => p.documentPath) := by
  refine ⟨?_, ?_, ?_, ?_⟩
  · simp [lookupFragment, registerFragment, List.lookup]
  · simp [fragmentRefTmpl, lookupFragment, registerFragment, List.lookup]
  · intro hwf hrf
    constructor <;> simp [fragmentFileEvent, hwf, hrf]
  · unfold fragmentFileEvent
    cases hwf : E.getWorkspaceFolder f with
    | none => rfl
    | some wf' =>
      cases hrf : E.readFile f with
      | none => rfl
      | some c => exact map_documentPath_updateAll E _ st.panels

/-- C7 witness: re-registering `header` wins on lookup, the
fragment-inclusion render yields the latest content, and a concrete
fragment-file change registers under the derived name. -/
theorem C7_witness :
    lookupFragment "header" (registerFragment "header" "<h2>Yo</h2>"
        (registerFragment "header" "<h1>Hi</h1>" [])) = some "<h2>Yo</h2>"
    ∧ fragmentRefTmpl "header" (registerFragment "header" "<h2>Yo</h2>" [])
        Json.emptyObj = Except.ok "<h2>Yo</h2>"
    ∧ (fragmentFileEvent fragEnv oneSessionState "/proj/header.hbs").registry
        = registerFragment (fragmentNameGenerator "/proj/header.hbs" "/proj")
            "<h1>Hi</h1>" oneSessionState.registry := by
  refine ⟨?_, ?_, ?_⟩
  · exact (C7_fragment_overwrite fragEnv oneSessionState "/proj/header.hbs"
      "/proj" "<h1>Hi</h1>" [] "header" "<h1>Hi</h1>" "<h2>Yo</h2>"
      Json.emptyObj).1
  · exact (C7_fragment_overwrite fragEnv oneSessionState "/proj/header.hbs"
      "/proj" "<h1>Hi</h1>" [] "header" "<h1>Hi</h1>" "<h2>Yo</h2>"
      Json.emptyObj).2.1
  · exact ((C7_fragment_overwrite fragEnv oneSessionState "/proj/header.hbs"
      "/proj" "<h1>Hi</h1>" [] "header" "<h1>Hi</h1>" "<h2>Yo</h2>"
      Json.emptyObj).2.2.1 rfl rfl).1

theorem contains_cons_of_contains (a x : String) (l : List String)
    (h : l.contains x = true) : (a :: l).contains x = true :=
  List.elem_iff.mpr (List.mem_cons_of_mem a (List.elem_iff.mp h))

theorem contains_cons_self (x : String) (l : List String) :
    (x :: l).contains x = true :=
  List.elem_iff.mpr (List.mem_cons_self x l)

theorem removeExisting_lw (st : ExtState) (dp : String) :
    (removeExisting st dp).loadedWorkspaces = st.loadedWorkspaces := by
  unfold removeExisting
  cases st.panels.find? (fun q => q.documentPath == dp) <;> rfl

theorem removeExisting_of_find (st : ExtState) (dp : String) (p : Panel)
    (hfind : st.panels.find? (fun q => q.documentPath == dp) = some p) :
    removeExisting st dp =
      { st with
        panels := st.panels.eraseP (fun q => q.documentPath == dp)
        surfaceDisposeLog := p.documentPath :: st.surfaceDisposeLog
        watcherDisposeLog := p.contextFileName :: st.watcherDisposeLog } := by
  simp [removeExisting, hfind]

theorem openAfterRemoval_of_root (E : Env) (st1 : ExtState) (dp root : String)
    (hroot : E.getWorkspaceFolder dp = some root) :
    openAfterRemoval E st1 dp = openInRoot E st1 dp root := by
  unfold openAfterRemoval
  rw [hroot]

theorem openInRoot_loaded (E : Env) (st1 : ExtState) (dp root : String)
    (hcont : st1.loadedWorkspaces.contains root = true) :
    openInRoot E st1 dp root
      = { st1 with
          panels := st1.panels ++ [updatePanel E st1.registry (mkPanel dp)] } := by
  unfold openInRoot
  rw [if_pos hcont]

theorem openInRoot_first_load (E : Env) (st1 : ExtState) (dp root : String)
    (known : Registry)
    (hcont : ¬ st1.loadedWorkspaces.contains root = true)
    (hcol : collectFragments E (E.findFiles root) = some known) :
    openInRoot E st1 dp root
      = { st1 with
          panels := st1.panels
            ++ [updatePanel E (known ++ st1.registry) (mkPanel dp)]
          loadedWorkspaces := root :: st1.loadedWorkspaces
          registry := known ++ st1.registry } := by
  unfold openInRoot findAndRegisterFragments
  rw [if_neg hcont, hcol]

theorem openInRoot_failed_load (E : Env) (st1 : ExtState) (dp root : String)
    (hcont : ¬ st1.loadedWorkspaces.contains root = true)
    (hcol : collectFragments E (E.findFiles root) = none) :
    openInRoot E st1 dp root = st1 := by
  unfold openInRoot findAndRegisterFragments
  rw [if_neg hcont, hcol]

theorem openInRoot_lw_mono (E : Env) (st1 : ExtState) (dp root r : String)
    (h : st1.loadedWorkspaces.contains root = true) :
    (openInRoot E st1 dp r).loadedWorkspaces.contains root = true := by
  by_cases hc : st1.loadedWorkspaces.contains r = true
  · rw [openInRoot_loaded E st1 dp r hc]
    exact h
  · cases hcol : collectFragments E (E.findFiles r) with
    | none =>
      rw [openInRoot_failed_load E st1 dp r hc hcol]
      exact h
    | some known =>
      rw [openInRoot_first_load E st1 dp r known hc hcol]
      exact contains_cons_of_contains r root _ h

theorem openAfterRemoval_lw_mono (E : Env) (st1 : ExtState) (dp root : String)
    (h : st1.loadedWorkspaces.contains root = true) :
    (openAfterRemoval E st1 dp).loadedWorkspaces.contains root = true := by
  unfold openAfterRemoval
  cases E.getWorkspaceFolder dp with
  | none => exact h
  | some r => exact openInRoot_lw_mono E st1 dp root r h

theorem fragmentFileEvent_lw (E : Env) (st : ExtState) (f : String) :
    (fragmentFileEvent E st f).loadedWorkspaces = st.loadedWorkspaces := by
  unfold fragmentFileEvent
  cases E.getWorkspaceFolder f with
  | none => rfl
  | some wf =>
    cases E.readFile f with
    | none => rfl
    | some c => rfl

theorem surfaceClosedEvent_lw (st : ExtState) (dp : String) :
    (surfaceClosedEvent st dp).loadedWorkspaces = st.loadedWorkspaces := by
  unfold surfaceClosedEvent
  cases st.panels.find? (fun q => q.documentPath == dp) <;> rfl

/-- C8: the workspace bulk-load flag is monotone — once a root is marked
loaded, no event of the extension ever clears it; a preview request for a
loaded root is independent of the bulk file-discovery collaborator (the
full-directory scan is skipped); and the flag is set by a preview request
whose first bulk load succeeds. -/
theorem C8_workspace_flag_monotone (E : Env) (st : ExtState) (root : String) :
    (∀ ev, st.loadedWorkspaces.contains root = true →
        (step E st ev).loadedWorkspaces.contains root = true)
    ∧ (∀ dp, E.getWorkspaceFolder dp = some root →
        st.loadedWorkspaces.contains root = true →
        ∀ ff, previewCommand { E with findFiles := ff } st dp
          = previewCommand E st dp)
    ∧ (∀ dp known, E.getWorkspaceFolder dp = some root →
        collectFragments E (E.findFiles root) = some known →
        (previewCommand E st dp).loadedWorkspaces.contains root = true) := by
  refine ⟨?_, ?_, ?_⟩
  · intro ev h
    cases ev with
    | preview dp =>
      refine openAfterRemoval_lw_mono E _ dp root ?_
      rw [removeExisting_lw]
      exact h
    | fragmentFile f =>
      show (fragmentFileEvent E st f).loadedWorkspaces.contains root = true
      rw [fragmentFileEvent_lw]; exact h
    | docChanged p => exact h
    | contextFileChanged p => exact h
    | surfaceClosed dp =>
      show (surfaceClosedEvent st dp).loadedWorkspaces.contains root = true
      rw [surfaceClosedEvent_lw]; exact h
    | deactivate => exact h
  · intro dp hroot hcont ff
    have hroot' : Env.getWorkspaceFolder { E with findFiles := ff } dp
        = some root := hroot
    have hcont' : (removeExisting st dp).loadedWorkspaces.contains root
        = true := by
      rw [removeExisting_lw]; exact hcont
    show openAfterRemoval { E with findFiles := ff } (removeExisting st dp) dp
      = openAfterRemoval E (removeExisting st dp) dp
    rw [openAfterRemoval_of_root { E with findFiles := ff } _ dp root hroot',
      openAfterRemoval_of_root E _ dp root hroot,
      openInRoot_loaded { E with findFiles := ff } _ dp root hcont',
      openInRoot_loaded E _ dp root hcont']
    rfl
  · intro dp known hroot hcollect
    show (openAfterRemoval E (removeExisting st dp) dp).loadedWorkspaces.contains
        root = true
    rw [openAfterRemoval_of_root E _ dp root hroot]
    by_cases hc : (removeExisting st dp).loadedWorkspaces.contains root = true
    · rw [openInRoot_loaded E _ dp root hc]
      exact hc
    · rw [openInRoot_first_load E _ dp root known hc hcollect]
      exact contains_cons_self root _

/-- C8 witness: deactivation keeps the flag set; a preview request for a
loaded root is insensitive to the file-discovery function; and a first
successful bulk load sets the flag. -/
theorem C8_witness :
    (step wsEnv loadedState Event.deactivate).loadedWorkspaces.contains
        "/proj" = true
    ∧ previewCommand { wsEnv with findFiles := fun _ => ["/proj/x.hbs"] }
        loadedState "/a.hbs" = previewCommand wsEnv loadedState "/a.hbs"
    ∧ (previewCommand wsEnv oneSessionState "/a.hbs").loadedWorkspaces.contains
        "/proj" = true := by
  refine ⟨?_, ?_, ?_⟩
  · exact (C8_workspace_flag_monotone wsEnv loadedState "/proj").1
      Event.deactivate (by decide)
  · exact (C8_workspace_flag_monotone wsEnv loadedState "/proj").2.1
      "/a.hbs" rfl (by decide) (fun _ => ["/proj/x.hbs"])
  · exact (C8_workspace_flag_monotone wsEnv oneSessionState "/proj").2.2
      "/a.hbs" [] rfl rfl

/-- C9: closing a session's preview surface releases its context-file
watcher (logged) and removes exactly that session from the active set —
the terminal transition of the session state machine. -/
theorem C9_surface_close_disposes (st : ExtState) (dp : String) (p : Panel)
    (hfind : st.panels.find? (fun q => q.documentPath == dp) = some p) :
    (surfaceClosedEvent st dp).panels
      = st.panels.eraseP (fun q => q.documentPath == dp)
    ∧ p.contextFileName ∈ (surfaceClosedEvent st dp).watcherDisposeLog
    ∧ (surfaceClosedEvent st dp).panels.length + 1 = st.panels.length := by
  refine ⟨?_, ?_, ?_⟩
  · simp [surfaceClosedEvent, hfind]
  · simp [surfaceClosedEvent, hfind]
  · show (surfaceClosedEvent st dp).panels.length + 1 = st.panels.length
    have h1 : (surfaceClosedEvent st dp).panels
        = st.panels.eraseP (fun q => q.documentPath == dp) := by
      simp [surfaceClosedEvent, hfind]
    have hmem : p ∈ st.panels := List.mem_of_find?_eq_some hfind
    have hpa := @List.find?_some Panel (fun q => q.documentPath == dp)
      p st.panels hfind
    rw [h1]
    exact List.length_eraseP_add_one hmem hpa

/-- C9 witness: closing the only session's surface empties the active set
and logs its context-file watcher disposal. -/
theorem C9_witness :
    (surfaceClosedEvent oneSessionState "/a.hbs").panels = []
    ∧ "/a.hbs.json"
        ∈ (surfaceClosedEvent oneSessionState "/a.hbs").watcherDisposeLog := by
  have h := C9_surface_close_disposes oneSessionState "/a.hbs"
    (mkPanel "/a.hbs") rfl
  exact ⟨h.1.trans (by rfl), h.2.1⟩

theorem countP_new_session (E : Env) (reg : Registry) (l : List Panel)
    (dp : String) (h0 : l.countP (fun q => q.documentPath == dp) = 0) :
    (l ++ [updatePanel E reg (mkPanel dp)]).countP
      (fun q => q.documentPath == dp) = 1 := by
  rw [List.countP_append, h0]
  have hup : (updatePanel E reg (mkPanel dp)).documentPath = dp := by
    rw [updatePanel_documentPath]; rfl
  simp [List.countP_cons, hup]

/-- C1 counterexample: in a state whose only session is bound to `/a.hbs`,
invoking the preview command for `/a.hbs` while the document resolves to
no workspace folder leaves zero sessions for that path — not exactly one
as the claim states — because the existing session is disposed and removed
before the workspace-folder check aborts the command. -/
theorem C1_counterexample :
    oneSessionState.panels.countP (fun q => q.documentPath == "/a.hbs") = 1
    ∧ (previewCommand baseEnv oneSessionState "/a.hbs").panels.countP
        (fun q => q.documentPath == "/a.hbs") = 0
    ∧ ¬ ((previewCommand baseEnv oneSessionState "/a.hbs").panels.countP
        (fun q => q.documentPath == "/a.hbs") = 1) := by
  refine ⟨by decide, by decide, by decide⟩

/-- C1 amended: when a session exists for the document's path, it is
disposed (its surface receives a disposal call, recorded in the log) and
removed before any new session is constructed; provided the document
resolves to a workspace folder and the fragment bulk load does not throw,
a fresh session is then constructed and registered, so exactly one active
session for that path remains afterward (with the surviving at-most-one
invariant assumed of the input state). -/
theorem C1_amended_replaces_existing (E : Env) (st : ExtState)
    (dp root : String) (p : Panel)
    (hfind : st.panels.find? (fun q => q.documentPath == dp) = some p)
    (hinv : st.panels.countP (fun q => q.documentPath == dp) ≤ 1)
    (hroot : E.getWorkspaceFolder dp = some root)
    (hbulk : st.loadedWorkspaces.contains root = true ∨
        ∃ known, collectFragments E (E.findFiles root) = some known) :
    ∃ reg,
      (previewCommand E st dp).panels
        = st.panels.eraseP (fun q => q.documentPath == dp)
          ++ [updatePanel E reg (mkPanel dp)]
      ∧ dp ∈ (previewCommand E st dp).surfaceDisposeLog
      ∧ (previewCommand E st dp).panels.countP
          (fun q => q.documentPath == dp) = 1 := by
  have hpd : p.documentPath = dp := by
    have h1 := @List.find?_some Panel (fun q => q.documentPath == dp)
      p st.panels hfind
    simpa using h1
  have hcount0 : (st.panels.eraseP (fun q => q.documentPath == dp)).countP
      (fun q => q.documentPath == dp) = 0 := by
    have h2 := countP_eraseP_of_find (fun q => q.documentPath == dp)
      st.panels p hfind
    omega
  have hrem := removeExisting_of_find st dp p hfind
  have hlog : dp ∈ (removeExisting st dp).surfaceDisposeLog := by
    rw [hrem, hpd]
    exact List.mem_cons_self dp _
  unfold previewCommand
  rw [openAfterRemoval_of_root E _ dp root hroot]
  by_cases hc : (removeExisting st dp).loadedWorkspaces.contains root = true
  · refine ⟨(removeExisting st dp).registry, ?_, ?_, ?_⟩
    · rw [openInRoot_loaded E _ dp root hc, hrem]
    · rw [openInRoot_loaded E _ dp root hc]
      exact hlog
    · rw [openInRoot_loaded E _ dp root hc, hrem]
      exact countP_new_session E _ _ dp hcount0
  · have hknown : ∃ known, collectFragments E (E.findFiles root) = some known := by
      rcases hbulk with hb | hb
      · exfalso
        rw [removeExisting_lw] at hc
        exact hc hb
      · exact hb
    obtain ⟨known, hcol⟩ := hknown
    refine ⟨known ++ (removeExisting st dp).registry, ?_, ?_, ?_⟩
    · rw [openInRoot_first_load E _ dp root known hc hcol, hrem]
    · rw [openInRoot_first_load E _ dp root known hc hcol]
      exact hlog
    · rw [openInRoot_first_load E _ dp root known hc hcol, hrem]
      exact countP_new_session E _ _ dp hcount0

/-- C1 witness for the amended claim: reopening the only session's path in
a workspace yields exactly one session for the path, and the old surface
received a disposal call. -/
theorem C1_witness :
    (previewCommand wsEnv oneSessionState "/a.hbs").panels.countP
        (fun q => q.documentPath == "/a.hbs") = 1
    ∧ "/a.hbs" ∈ (previewCommand wsEnv oneSessionState "/a.hbs").surfaceDisposeLog := by
  obtain ⟨reg, h1, h2, h3⟩ := C1_amended_replaces_existing wsEnv oneSessionState
    "/a.hbs" "/proj" (mkPanel "/a.hbs") rfl (by decide) rfl (Or.inr ⟨[], rfl⟩)
  exact ⟨h3, h2⟩

end HbPreview
